import Mathlib

/-!
# SLA timer & escalation subsystem: a shallow embedding

This development embeds the SLA timer and escalation logic of the task
tracker (overdue computation, timer state transitions, the conditional
escalation claim, and the periodic sweeper) and proves the specified
properties about it.

Conventions of the embedding:
* Timestamps are integer milliseconds since the epoch (`Int`).  A nullable
  timestamp field, or one whose string form may fail to parse
  (`Number.isNaN(new Date(s).getTime())`), is an `Option Int` with `none`
  covering both the null/undefined and the unparseable case: every guard in
  the source treats those two identically for the fields we model.
* `Math.floor(x / 1000)` on a possibly negative difference is `Int.fdiv`
  (floor division).
* Task `status` is a `String`, as in the TypeScript source
  (`'open' | 'pending' | 'closed'`).
* JavaScript truthiness on `custom_duration_seconds`
  (`!customDurationSeconds`) makes the value `0` behave as "unset"; the
  embedding tests `c ≠ 0` explicitly where the source relies on truthiness.
* The storage collaborator is a `List Task` of rows; a supabase
  `update ... .is('escalated_at', null).eq('id', id)` is an elementwise
  conditional rewrite of that list, and `.maybeSingle()` returns the first
  affected row.
-/

namespace Culate

/-- A task row, with the fields the SLA timer and escalation core reads or
writes.  Mirrors the `tasks` table columns used by
`check-overdue-tasks/index.ts`, `escalation.ts` and `TaskDetailScreen.tsx`. -/
structure Task where
  id : Nat
  status : String
  due_at : Option Int
  custom_duration_seconds : Option Int
  started_at : Option Int
  time_spent_seconds : Int
  escalated_at : Option Int
  escalated_to : Option Nat
  closed_approved_by : Option Nat
  closed_at : Option Int
  deriving DecidableEq, Repr

/-- `isOverdueDueAt` from `check-overdue-tasks/index.ts` (lines 19-24) and
`escalation.ts` (part_005 lines 6-11): a task is overdue on the `due_at`
path iff `due_at` is present and parseable, the status is not `closed`,
and the parsed time is strictly before now. -/
def isOverdueDueAt (dueAt : Option Int) (status : String) (now : Int) : Bool :=
  match dueAt with
  | none => false
  | some t => if status = "closed" then false else decide (t < now)

/-- `isOverdueCustom` from `check-overdue-tasks/index.ts` (lines 26-36):
overdue on the custom-timer path iff `custom_duration_seconds` is truthy
(present and nonzero), `started_at` is present and parseable, status is not
`closed`, and `floor((now - started_at)/1000) > custom_duration_seconds`. -/
def isOverdueCustom (customDurationSeconds : Option Int) (startedAt : Option Int)
    (status : String) (now : Int) : Bool :=
  match customDurationSeconds, startedAt with
  | some c, some s =>
      if c = 0 ∨ status = "closed" then false
      else decide (Int.fdiv (now - s) 1000 > c)
  | _, _ => false

/-- `isOverdueCustomTimer` from `escalation.ts` (part_005 lines 13-23);
its body is character-for-character the same check as `isOverdueCustom`
in the edge function, so it is a definitional alias. -/
def isOverdueCustomTimer (customDurationSeconds : Option Int) (startedAt : Option Int)
    (status : String) (now : Int) : Bool :=
  isOverdueCustom customDurationSeconds startedAt status now

/-- The combined overdue check used by `escalateOverdueTask`
(part_005 lines 70-72) and by the sweeper's filter
(`check-overdue-tasks/index.ts` lines 177-180): the *disjunction* of the
custom-timer path and the `due_at` path. -/
def overdueOf (t : Task) (now : Int) : Bool :=
  isOverdueCustomTimer t.custom_duration_seconds t.started_at t.status now
    || isOverdueDueAt t.due_at t.status now

/-- The `{isOverdue, isUrgent}` part of the value computed by the
`formatRemaining` display helpers. -/
structure TimeInfo where
  isOverdue : Bool
  isUrgent : Bool
  deriving DecidableEq, Repr

/-- `formatRemaining` from `TaskCard.tsx` (lines 11-37), flags only.  It
takes *only* `due_at`: the card's countdown ignores `status`,
`custom_duration_seconds` and `started_at`.  `diffSec` is
`floor((due - now)/1000)`; overdue iff `diffSec < 0`; urgent iff
`0 < diffSec < 3600`. -/
def formatRemainingCard (dueAt : Option Int) (now : Int) : TimeInfo :=
  match dueAt with
  | none => ⟨false, false⟩
  | some due =>
      let diffSec : Int := Int.fdiv (due - now) 1000
      let isOverdue := decide (diffSec < 0)
      let isUrgent := decide (0 < diffSec) && decide (diffSec < 3600)
      if isOverdue then ⟨true, false⟩ else ⟨isOverdue, isUrgent⟩

/-- `formatRemaining` from `TaskDetailScreen.tsx` (lines 34-73), flags
only.  Unlike the card variant, it takes the status and short-circuits
`closed` to not-overdue / not-urgent before looking at `due_at`. -/
def formatRemainingDetail (dueAt : Option Int) (status : String) (now : Int) : TimeInfo :=
  if status = "closed" then ⟨false, false⟩
  else formatRemainingCard dueAt now

/-- The label chosen by `getStatusConfig` in `TaskCard.tsx` (lines 52-65):
the `overdue` badge is shown only when the computed `isOverdue` flag is set
*and* the status is not `closed`; otherwise the label follows the status. -/
def getStatusConfigLabel (status : String) (isOverdue : Bool) : String :=
  if isOverdue ∧ status ≠ "closed" then "overdue"
  else if status = "closed" then "closed"
  else if status = "open" then "open"
  else "pending"

-- Sanity checks of the duration model on concrete values.
example : isOverdueCustom (some 3600) (some 0) "open" 3601000 = true := by decide
example : isOverdueCustom (some 3600) (some 0) "open" 3599000 = false := by decide
example : isOverdueDueAt (some 999) "open" 1000 = true := by decide
example : isOverdueDueAt (some 999) "closed" 1000 = false := by decide
example : formatRemainingCard (some 0) 1000 = ⟨true, false⟩ := by decide
example : formatRemainingCard (some 3599000) 0 = ⟨false, true⟩ := by decide

/-! ## Task timer state machine (`TaskDetailScreen.tsx`) -/

/-- The effect of `handleOpen` (`TaskDetailScreen.tsx` lines 395-413) on the
task row: `update({ started_at: now, status: 'open' })`. -/
def handleOpen (t : Task) (now : Int) : Task :=
  { t with started_at := some now, status := "open" }

/-- The effect of `handlePending` (`TaskDetailScreen.tsx` lines 415-444):
fold the in-flight elapsed seconds (`floor((now - started_at)/1000)`,
only when `started_at` is non-null) into `time_spent_seconds`, clear
`started_at`, and set the status to `pending`. -/
def handlePending (t : Task) (now : Int) : Task :=
  let total := t.time_spent_seconds +
    (match t.started_at with
     | some s => Int.fdiv (now - s) 1000
     | none => 0)
  { t with started_at := none, time_spent_seconds := total, status := "pending" }

/-- The effect of `handleClose` (`TaskDetailScreen.tsx` lines 463-483) once
past its guards: fold the in-flight elapsed time exactly as in
`handlePending`, clear `started_at`, set `status = 'closed'` and the
approval fields in the same update.  (The legacy-schema retry at lines
485-498 merely drops the two approval columns when the database does not
have them; the timing fields are identical.) -/
def closeEffect (t : Task) (approver : Nat) (now : Int) : Task :=
  let total := t.time_spent_seconds +
    (match t.started_at with
     | some s => Int.fdiv (now - s) 1000
     | none => 0)
  { t with started_at := none, time_spent_seconds := total, status := "closed",
           closed_approved_by := some approver, closed_at := some now }

/-- The `InvalidTransition` condition of the state machine: an illegal
transition is rejected and no update is issued. -/
inductive TransitionError where
  | invalidTransition
  deriving DecidableEq, Repr

/-- The *start* transition as exposed by `TaskDetailScreen.tsx`: the Open
control is rendered with `disabled={isRunning || status === 'closed'}`
(line 583, with `isRunning := task.started_at !== null` at line 138), so an
attempt on a closed or already-running task never reaches `handleOpen` and
leaves the row unchanged; otherwise `handleOpen` runs. -/
def startAttempt (t : Task) (now : Int) : Except TransitionError Task :=
  if t.started_at.isSome ∨ t.status = "closed" then .error .invalidTransition
  else .ok (handleOpen t now)

/-- The *close* transition as exposed by `TaskDetailScreen.tsx`: the Close
control is `disabled={status === 'closed'}` (line 609), and `handleClose`
itself (lines 446-451) rejects the caller without approval authority
(`isManager` false, i.e. role not in admin/supervisor/department_head) with
the "Approval Required" alert before issuing any update. -/
def closeAttempt (t : Task) (isManager : Bool) (approver : Nat) (now : Int) :
    Except TransitionError Task :=
  if t.status = "closed" then .error .invalidTransition
  else if !isManager then .error .invalidTransition
  else .ok (closeEffect t approver now)

/-! ## The conditional escalation claim and the escalation protocol -/

/-- The per-row effect of the conditional update
`update({escalated_at: now, escalated_to: toId}).is('escalated_at', null).eq('id', id)`:
a row is rewritten iff it is the target row and its `escalated_at` is still
null; every other row, and every row already escalated, is untouched. -/
def claimRowUpdate (id : Nat) (now : Int) (toId : Option Nat) (t : Task) : Task :=
  if t.id = id ∧ t.escalated_at = none then
    { t with escalated_at := some now, escalated_to := toId }
  else t

/-- One conditional escalation claim against the store: returns the updated
rows together with the row handed back by `.select(...).maybeSingle()`
(`some` iff the update affected a row; `none` both when the id is absent
and when the claim was lost because `escalated_at` was already set). -/
def claimOnce (rows : List Task) (id : Nat) (now : Int) (toId : Option Nat) :
    List Task × Option Task :=
  (rows.map (claimRowUpdate id now toId),
   ((rows.filter (fun t => t.id = id ∧ t.escalated_at = none)).head?).map
     (claimRowUpdate id now toId))

/-- The outcome of one client-side escalation invocation: the store after
the call, the boolean the function returns, the push-notification target
(`none` = push skipped), and whether the escalation email edge function was
invoked. -/
structure EscResult where
  rows : List Task
  returned : Bool
  pushTo : Option Nat
  emailed : Bool
  deriving DecidableEq, Repr

/-- `escalateOverdueTask` from `escalation.ts` (part_005 lines 59-154).
`task` is the caller's snapshot of the row (the function's argument);
`rows` is the current store; `supQuery` is the result of the
`profiles ... in('role', [supervisor, department_head, admin]).limit(1)`
query (`none` = query error, `some none` = succeeded with no supervisory
user, `some (some sid)` = first supervisory user).  Eligibility (overdue
and not-yet-escalated) is computed from the *snapshot* with the current
clock; only the conditional update consults the store.  On a successful
claim the push goes to the selected supervisor when there is one, and the
escalation email is invoked either way. -/
def escalateOverdueTask (task : Task) (rows : List Task)
    (supQuery : Option (Option Nat)) (now : Int) : EscResult :=
  if !(overdueOf task now) || task.escalated_at.isSome then ⟨rows, false, none, false⟩
  else
    match supQuery with
    | none => ⟨rows, false, none, false⟩
    | some escalateToId =>
        match (claimOnce rows task.id now escalateToId).2 with
        | none => ⟨(claimOnce rows task.id now escalateToId).1, false, none, false⟩
        | some _ => ⟨(claimOnce rows task.id now escalateToId).1, true, escalateToId, true⟩

/-- The older `escalateOverdueTask` variant (part_009 lines 13-54): overdue
is decided from `due_at` alone, a missing supervisor *aborts* the
escalation (`if (!escalateToId) return false` before any update), and the
update is conditioned only on `.eq('id', task.id)` — not on
`escalated_at` being null.  No email edge function exists in this variant. -/
def escalateOverdueTaskLegacy (task : Task) (rows : List Task)
    (supQuery : Option Nat) (now : Int) : EscResult :=
  if !(isOverdueDueAt task.due_at task.status now) || task.escalated_at.isSome then
    ⟨rows, false, none, false⟩
  else
    match supQuery with
    | none => ⟨rows, false, none, false⟩
    | some sid =>
        ⟨rows.map (fun t =>
           if t.id = task.id then
             { t with escalated_at := some now, escalated_to := some sid }
           else t),
         true, some sid, false⟩

/-! ## The escalation sweeper (`check-overdue-tasks/index.ts` serve handler) -/

/-- The sweeper's candidate scan
(`select ... .neq('status','closed').is('escalated_at', null).limit(1000)`,
lines 161-168). -/
def sweepCandidates (rows : List Task) : List Task :=
  (rows.filter (fun t => !(t.status = "closed") && t.escalated_at.isNone)).take 1000

/-- The sweeper's overdue filter over the candidates (lines 177-180):
the same custom-timer / due-at disjunction as the client. -/
def sweepOverdue (rows : List Task) (now : Int) : List Task :=
  (sweepCandidates rows).filter (fun t =>
    isOverdueCustom t.custom_duration_seconds t.started_at t.status now
      || isOverdueDueAt t.due_at t.status now)

/-- The outcome of one sweeper run: the store afterwards, the `processed`
count it reports, and the ids of the tasks whose claim succeeded in this
run (for each of which the admin-email fan-out of `sendEmailsForTask` was
entered). -/
structure SweepResult where
  rows : List Task
  processed : Nat
  escalatedIds : List Nat
  deriving DecidableEq, Repr

/-- One iteration of the sweeper's loop over an overdue candidate (lines
201-225): issue the conditional claim; on zero rows affected (update error
or claim lost) continue with the next task; on success count it and record
the email dispatch. -/
def sweeperStep (supQuery : Option Nat) (now : Int)
    (acc : List Task × Nat × List Nat) (task : Task) : List Task × Nat × List Nat :=
  let res := claimOnce acc.1 task.id now supQuery
  match res.2 with
  | none => (res.1, acc.2.1, acc.2.2)
  | some _ => (res.1, acc.2.1 + 1, acc.2.2 ++ [task.id])

/-- One full sweeper run (`serve` handler, lines 145-228): scan and filter
the candidates once, resolve the single supervisor query once
(`supervisors?.[0]?.id ?? null`, which is also null when that query
errors), then drive the conditional claim for each overdue candidate in
order, tolerating per-task failure. -/
def sweeperRun (rows : List Task) (supQuery : Option Nat) (now : Int) : SweepResult :=
  if (sweepOverdue rows now).isEmpty then ⟨rows, 0, []⟩
  else
    ⟨((sweepOverdue rows now).foldl (sweeperStep supQuery now) (rows, 0, [])).1,
     ((sweepOverdue rows now).foldl (sweeperStep supQuery now) (rows, 0, [])).2.1,
     ((sweepOverdue rows now).foldl (sweeperStep supQuery now) (rows, 0, [])).2.2⟩

/-! ## Arbitrary interleavings of the escalation protocol

The storage layer serializes updates, and every write the protocol makes
goes through one atomic conditional claim, so an arbitrary concurrent
interleaving of client invocations and sweeper runs is modelled by an
arbitrary *sequence* of those invocations applied to the shared store. -/

/-- One invocation of the escalation protocol: a client call to
`escalateOverdueTask` (with its own snapshot, supervisor-query outcome and
clock) or one sweeper run. -/
inductive ProtoOp where
  | client (task : Task) (supQuery : Option (Option Nat)) (now : Int)
  | sweep (supQuery : Option Nat) (now : Int)

/-- Apply one protocol invocation to the store; also report the ids whose
conditional claim this invocation won (for a client call, its task's id
when the function returned `true`). -/
def runOp (rows : List Task) : ProtoOp → List Task × List Nat
  | .client task sq now =>
      let r := escalateOverdueTask task rows sq now
      (r.rows, if r.returned then [task.id] else [])
  | .sweep sq now =>
      let r := sweeperRun rows sq now
      (r.rows, r.escalatedIds)

/-- Apply a sequence of protocol invocations, collecting each invocation's
list of won claims. -/
def runOps (rows : List Task) : List ProtoOp → List Task × List (List Nat)
  | [] => (rows, [])
  | op :: ops =>
      let step := runOp rows op
      let rest := runOps step.1 ops
      (rest.1, step.2 :: rest.2)

/-- How many of the invocations' won claims concern the task id `tid`. -/
def claimSuccesses (tid : Nat) (logs : List (List Nat)) : Nat :=
  (logs.map (fun l => l.count tid)).sum

/-- `sealed tid rows`: every row with id `tid` already has `escalated_at`
set.  Once this holds, no conditional claim on `tid` can succeed again. -/
def sealedId (tid : Nat) (rows : List Task) : Prop :=
  ∀ t ∈ rows, t.id = tid → t.escalated_at ≠ none

/-! ### Facts about the conditional claim -/

lemma claimRowUpdate_id (id : Nat) (now : Int) (toId : Option Nat) (t : Task) :
    (claimRowUpdate id now toId t).id = t.id := by
  unfold claimRowUpdate
  split <;> rfl

lemma claimRowUpdate_escalated_some (id : Nat) (now : Int) (toId : Option Nat)
    (t : Task) (v : Int) (h : t.escalated_at = some v) :
    (claimRowUpdate id now toId t).escalated_at = some v := by
  unfold claimRowUpdate
  split
  · next hc => rw [hc.2] at h; simp at h
  · exact h

lemma claimRowUpdate_seals (id : Nat) (now : Int) (toId : Option Nat) (t : Task)
    (h : t.id = id) : (claimRowUpdate id now toId t).escalated_at ≠ none := by
  unfold claimRowUpdate
  split
  · simp
  · next hc =>
      intro hnone
      exact hc ⟨h, hnone⟩

lemma claimRowUpdate_escalated_none (id : Nat) (now : Int) (toId : Option Nat)
    (t : Task) (h : (claimRowUpdate id now toId t).escalated_at = none) :
    t.escalated_at = none := by
  unfold claimRowUpdate at h
  split at h
  · simp at h
  · exact h

lemma claimRowUpdate_of_ne (id : Nat) (now : Int) (toId : Option Nat) (t : Task)
    (h : t.id ≠ id) : claimRowUpdate id now toId t = t := by
  unfold claimRowUpdate
  split
  · next hc => exact absurd hc.1 h
  · rfl

lemma claimRowUpdate_of_escalated (id : Nat) (now : Int) (toId : Option Nat) (t : Task)
    (h : t.escalated_at ≠ none) : claimRowUpdate id now toId t = t := by
  unfold claimRowUpdate
  split
  · next hc => exact absurd hc.2 h
  · rfl

lemma claimOnce_rows (rows : List Task) (id : Nat) (now : Int) (toId : Option Nat) :
    (claimOnce rows id now toId).1 = rows.map (claimRowUpdate id now toId) := rfl

/-- After a conditional claim targeting `id`, no row with that id has a
null `escalated_at` any more — whether or not the claim succeeded. -/
lemma claimOnce_sealed (rows : List Task) (id : Nat) (now : Int) (toId : Option Nat) :
    sealedId id (claimOnce rows id now toId).1 := by
  intro t' ht' hid
  rw [claimOnce_rows] at ht'
  rcases List.mem_map.mp ht' with ⟨t, _, rfl⟩
  exact claimRowUpdate_seals id now toId t (by rw [← claimRowUpdate_id id now toId t, hid])

lemma claimOnce_sealed_preserved (rows : List Task) (tid id : Nat) (now : Int)
    (toId : Option Nat) (h : sealedId tid rows) :
    sealedId tid (claimOnce rows id now toId).1 := by
  intro t' ht' hid
  rw [claimOnce_rows] at ht'
  rcases List.mem_map.mp ht' with ⟨t, htmem, rfl⟩
  intro hnone
  exact h t htmem (by rw [← claimRowUpdate_id id now toId t, hid])
    (claimRowUpdate_escalated_none id now toId t hnone)

/-- Once every row with id `id` is escalated, a conditional claim on `id`
affects zero rows. -/
lemma claimOnce_ret_none_of_sealed (rows : List Task) (id : Nat) (now : Int)
    (toId : Option Nat) (h : sealedId id rows) :
    (claimOnce rows id now toId).2 = none := by
  unfold claimOnce
  simp only
  have hfil : rows.filter (fun t => decide (t.id = id ∧ t.escalated_at = none)) = [] := by
    rw [List.filter_eq_nil_iff]
    intro t htmem
    simp only [decide_eq_true_eq, not_and]
    intro hid
    exact h t htmem hid
  rw [hfil]
  rfl

/-- A claim that affected a row can only happen when some row with the
target id still had a null `escalated_at`. -/
lemma claimOnce_ret_some (rows : List Task) (id : Nat) (now : Int) (toId : Option Nat)
    (u : Task) (h : (claimOnce rows id now toId).2 = some u) :
    ¬ sealedId id rows := by
  intro hsealed
  rw [claimOnce_ret_none_of_sealed rows id now toId hsealed] at h
  exact Option.noConfusion h

lemma claimOnce_escalated_preserved (rows : List Task) (id : Nat) (now : Int)
    (toId : Option Nat) (i : Nat) (t : Task) (v : Int)
    (hget : rows[i]? = some t) (hesc : t.escalated_at = some v) :
    ∃ t', (claimOnce rows id now toId).1[i]? = some t' ∧ t'.escalated_at = some v := by
  refine ⟨claimRowUpdate id now toId t, ?_, claimRowUpdate_escalated_some id now toId t v hesc⟩
  rw [claimOnce_rows, List.getElem?_map, hget]
  rfl

/-! ### Facts about one sweeper iteration and the sweeper's fold -/

lemma sweeperStep_rows (sq : Option Nat) (now : Int) (acc : List Task × Nat × List Nat)
    (task : Task) :
    (sweeperStep sq now acc task).1 = (claimOnce acc.1 task.id now sq).1 := by
  unfold sweeperStep
  cases h : (claimOnce acc.1 task.id now sq).2 <;> simp [h]

lemma sweeperStep_of_none (sq : Option Nat) (now : Int) (acc : List Task × Nat × List Nat)
    (task : Task) (h : (claimOnce acc.1 task.id now sq).2 = none) :
    sweeperStep sq now acc task = ((claimOnce acc.1 task.id now sq).1, acc.2.1, acc.2.2) := by
  unfold sweeperStep
  simp [h]

lemma sweeperStep_of_some (sq : Option Nat) (now : Int) (acc : List Task × Nat × List Nat)
    (task : Task) (u : Task) (h : (claimOnce acc.1 task.id now sq).2 = some u) :
    sweeperStep sq now acc task =
      ((claimOnce acc.1 task.id now sq).1, acc.2.1 + 1, acc.2.2 ++ [task.id]) := by
  unfold sweeperStep
  simp [h]

/-- Core accounting of the sweeper's fold: for any task id `tid`, the ids
claimed by the fold contain at most one occurrence of `tid` beyond the
accumulator; any claim of `tid` leaves the store sealed for `tid`; and a
store already sealed for `tid` yields no further claim of `tid` and stays
sealed. -/
lemma sweepFold_count (sq : Option Nat) (nowI : Int) (tid : Nat) (cands : List Task) :
    ∀ (rows : List Task) (n : Nat) (ids : List Nat),
      (cands.foldl (sweeperStep sq nowI) (rows, n, ids)).2.2.count tid ≤ ids.count tid + 1
      ∧ (ids.count tid < (cands.foldl (sweeperStep sq nowI) (rows, n, ids)).2.2.count tid →
          sealedId tid (cands.foldl (sweeperStep sq nowI) (rows, n, ids)).1)
      ∧ (sealedId tid rows →
          (cands.foldl (sweeperStep sq nowI) (rows, n, ids)).2.2.count tid = ids.count tid
          ∧ sealedId tid (cands.foldl (sweeperStep sq nowI) (rows, n, ids)).1) := by
  induction cands with
  | nil =>
      intro rows n ids
      refine ⟨Nat.le_succ _, ?_, fun hs => ⟨rfl, hs⟩⟩
      intro hlt
      exact absurd hlt (lt_irrefl _)
  | cons t cands ih =>
      intro rows n ids
      rw [List.foldl_cons]
      cases hr : (claimOnce rows t.id nowI sq).2 with
      | none =>
          rw [sweeperStep_of_none sq nowI (rows, n, ids) t hr]
          have IH := ih (claimOnce rows t.id nowI sq).1 n ids
          exact ⟨IH.1, IH.2.1, fun hs =>
            IH.2.2 (claimOnce_sealed_preserved rows tid t.id nowI sq hs)⟩
      | some u =>
          rw [sweeperStep_of_some sq nowI (rows, n, ids) t u hr]
          have IH := ih (claimOnce rows t.id nowI sq).1 (n + 1) (ids ++ [t.id])
          by_cases hid : t.id = tid
          · have hsealed : sealedId tid (claimOnce rows t.id nowI sq).1 := by
              rw [← hid]
              exact claimOnce_sealed rows t.id nowI sq
            have hcnt : (ids ++ [t.id]).count tid = ids.count tid + 1 := by
              rw [List.count_append, hid]
              simp
            have IH3 := IH.2.2 hsealed
            refine ⟨by rw [IH3.1, hcnt], fun _ => IH3.2, fun hs => ?_⟩
            have : (claimOnce rows t.id nowI sq).2 = none :=
              claimOnce_ret_none_of_sealed rows t.id nowI sq (by rw [hid]; exact hs)
            rw [this] at hr
            exact Option.noConfusion hr
          · have hcnt : (ids ++ [t.id]).count tid = ids.count tid := by
              rw [List.count_append]
              simp [List.count_singleton', hid]
            refine ⟨?_, ?_, ?_⟩
            · have := IH.1
              rwa [hcnt] at this
            · intro hlt
              exact IH.2.1 (by rwa [hcnt])
            · intro hs
              have := IH.2.2 (claimOnce_sealed_preserved rows tid t.id nowI sq hs)
              rw [hcnt] at this
              exact this

/-- Row-wise escalation timestamps survive the sweeper's fold: a row whose
`escalated_at` is already set keeps its value. -/
lemma sweepFold_escalated_preserved (sq : Option Nat) (nowI : Int) (cands : List Task) :
    ∀ (rows : List Task) (n : Nat) (ids : List Nat) (i : Nat) (t : Task) (v : Int),
      rows[i]? = some t → t.escalated_at = some v →
      ∃ t', (cands.foldl (sweeperStep sq nowI) (rows, n, ids)).1[i]? = some t'
        ∧ t'.escalated_at = some v := by
  induction cands with
  | nil =>
      intro rows n ids i t v hget hesc
      exact ⟨t, hget, hesc⟩
  | cons c cands ih =>
      intro rows n ids i t v hget hesc
      rw [List.foldl_cons]
      obtain ⟨t', hget', hesc'⟩ :=
        claimOnce_escalated_preserved rows c.id nowI sq i t v hget hesc
      cases hr : (claimOnce rows c.id nowI sq).2 with
      | none =>
          rw [sweeperStep_of_none sq nowI (rows, n, ids) c hr]
          exact ih _ n ids i t' v hget' hesc'
      | some u =>
          rw [sweeperStep_of_some sq nowI (rows, n, ids) c u hr]
          exact ih _ (n + 1) (ids ++ [c.id]) i t' v hget' hesc'

/-! ### Case analyses of the two protocol entry points -/

/-- A client invocation either leaves the store untouched and returns
`false` (ineligible snapshot, or supervisor-query error), or its store is
exactly the result of one conditional claim on its task id, returning
`true` only when that claim affected a row. -/
lemma escalateOverdueTask_cases (task : Task) (rows : List Task)
    (sq : Option (Option Nat)) (now : Int) :
    escalateOverdueTask task rows sq now = ⟨rows, false, none, false⟩
    ∨ ∃ toId,
        (escalateOverdueTask task rows sq now).rows = (claimOnce rows task.id now toId).1
        ∧ ((escalateOverdueTask task rows sq now).returned = true →
            (claimOnce rows task.id now toId).2.isSome) := by
  unfold escalateOverdueTask
  split
  · exact Or.inl rfl
  · cases sq with
    | none => exact Or.inl rfl
    | some toId =>
        refine Or.inr ⟨toId, ?_⟩
        cases hc : (claimOnce rows task.id now toId).2 with
        | none => refine ⟨?_, ?_⟩ <;> simp [hc]
        | some u => refine ⟨?_, ?_⟩ <;> simp [hc]

lemma sweeperRun_cases (rows : List Task) (sq : Option Nat) (now : Int) :
    sweeperRun rows sq now = ⟨rows, 0, []⟩
    ∨ ((sweeperRun rows sq now).rows =
          ((sweepOverdue rows now).foldl (sweeperStep sq now) (rows, 0, [])).1
        ∧ (sweeperRun rows sq now).escalatedIds =
          ((sweepOverdue rows now).foldl (sweeperStep sq now) (rows, 0, [])).2.2) := by
  unfold sweeperRun
  split
  · exact Or.inl rfl
  · exact Or.inr ⟨rfl, rfl⟩

lemma runOp_client_fst (rows : List Task) (task : Task) (sq : Option (Option Nat))
    (now : Int) :
    (runOp rows (.client task sq now)).1 = (escalateOverdueTask task rows sq now).rows := rfl

lemma runOp_client_snd (rows : List Task) (task : Task) (sq : Option (Option Nat))
    (now : Int) :
    (runOp rows (.client task sq now)).2 =
      if (escalateOverdueTask task rows sq now).returned then [task.id] else [] := rfl

lemma runOp_sweep_fst (rows : List Task) (sq : Option Nat) (now : Int) :
    (runOp rows (.sweep sq now)).1 = (sweeperRun rows sq now).rows := rfl

lemma runOp_sweep_snd (rows : List Task) (sq : Option Nat) (now : Int) :
    (runOp rows (.sweep sq now)).2 = (sweeperRun rows sq now).escalatedIds := rfl

lemma runOps_cons (rows : List Task) (op : ProtoOp) (ops : List ProtoOp) :
    runOps rows (op :: ops) =
      ((runOps (runOp rows op).1 ops).1,
       (runOp rows op).2 :: (runOps (runOp rows op).1 ops).2) := rfl

/-! ### Per-invocation and per-interleaving accounting -/

/-- One protocol invocation claims a given task id at most once; it claims
nothing on (and preserves) a store already sealed for that id; and when it
does claim the id, it leaves the store sealed for it. -/
lemma runOp_count (tid : Nat) (rows : List Task) (op : ProtoOp) :
    (runOp rows op).2.count tid ≤ 1
    ∧ (sealedId tid rows → (runOp rows op).2.count tid = 0)
    ∧ (sealedId tid rows → sealedId tid (runOp rows op).1)
    ∧ (1 ≤ (runOp rows op).2.count tid → sealedId tid (runOp rows op).1) := by
  cases op with
  | client task sq now =>
      rw [runOp_client_fst, runOp_client_snd]
      rcases escalateOverdueTask_cases task rows sq now with h | ⟨toId, hrows, hret⟩
      · rw [h]
        exact ⟨by simp, by intro _; simp, by intro hs; simpa using hs,
          by intro h1; simp at h1⟩
      · cases hb : (escalateOverdueTask task rows sq now).returned with
        | false =>
            refine ⟨by simp [hb], by intro _; simp [hb], ?_, by intro h1; simp [hb] at h1⟩
            intro hs
            rw [hrows]
            exact claimOnce_sealed_preserved rows tid task.id now toId hs
        | true =>
            have hsome := hret hb
            obtain ⟨u, hu⟩ := Option.isSome_iff_exists.mp hsome
            have hns : ¬ sealedId task.id rows :=
              claimOnce_ret_some rows task.id now toId u hu
            by_cases hid : task.id = tid
            · have hsealed : sealedId tid (escalateOverdueTask task rows sq now).rows := by
                rw [hrows, ← hid]
                exact claimOnce_sealed rows task.id now toId
              refine ⟨by simp [hb, hid], ?_, fun _ => hsealed, fun _ => hsealed⟩
              intro hs
              exact absurd (by rwa [hid] : sealedId task.id rows) hns
            · have hcnt : List.count tid [task.id] = 0 := by
                rw [List.count_eq_zero]
                simp only [List.mem_singleton]
                exact fun heq => hid heq.symm
              refine ⟨by simp [hb, hcnt], by intro _; simp [hb, hcnt], ?_,
                by intro h1; simp [hb, hcnt] at h1⟩
              intro hs
              rw [hrows]
              exact claimOnce_sealed_preserved rows tid task.id now toId hs
  | sweep sq now =>
      rw [runOp_sweep_fst, runOp_sweep_snd]
      rcases sweeperRun_cases rows sq now with h | ⟨hrows, hids⟩
      · rw [h]
        exact ⟨by simp, by intro _; simp, by intro hs; simpa using hs,
          by intro h1; simp at h1⟩
      · have hfold := sweepFold_count sq now tid (sweepOverdue rows now) rows 0 []
        rw [List.count_nil] at hfold
        rw [hids, hrows]
        exact ⟨hfold.1, fun hs => (hfold.2.2 hs).1, fun hs => (hfold.2.2 hs).2,
          fun h1 => hfold.2.1 h1⟩

/-- One protocol invocation never changes an already-set `escalated_at`. -/
lemma runOp_escalated_preserved (rows : List Task) (op : ProtoOp) (i : Nat) (t : Task)
    (v : Int) (hget : rows[i]? = some t) (hesc : t.escalated_at = some v) :
    ∃ t', (runOp rows op).1[i]? = some t' ∧ t'.escalated_at = some v := by
  cases op with
  | client task sq now =>
      rw [runOp_client_fst]
      rcases escalateOverdueTask_cases task rows sq now with h | ⟨toId, hrows, _⟩
      · rw [h]
        exact ⟨t, hget, hesc⟩
      · rw [hrows]
        exact claimOnce_escalated_preserved rows task.id now toId i t v hget hesc
  | sweep sq now =>
      rw [runOp_sweep_fst]
      rcases sweeperRun_cases rows sq now with h | ⟨hrows, _⟩
      · rw [h]
        exact ⟨t, hget, hesc⟩
      · rw [hrows]
        exact sweepFold_escalated_preserved sq now (sweepOverdue rows now) rows 0 [] i t v
          hget hesc

lemma claimSuccesses_cons (tid : Nat) (l : List Nat) (logs : List (List Nat)) :
    claimSuccesses tid (l :: logs) = l.count tid + claimSuccesses tid logs := by
  unfold claimSuccesses
  rw [List.map_cons, List.sum_cons]

/-- Accounting over a whole interleaving: at most one invocation ever wins
the claim on a given id, none does once the store is sealed for it, and
sealing persists. -/
lemma runOps_count (tid : Nat) (ops : List ProtoOp) :
    ∀ rows : List Task,
      claimSuccesses tid (runOps rows ops).2 ≤ 1
      ∧ (sealedId tid rows → claimSuccesses tid (runOps rows ops).2 = 0)
      ∧ (sealedId tid rows → sealedId tid (runOps rows ops).1) := by
  induction ops with
  | nil =>
      intro rows
      exact ⟨Nat.zero_le _, fun _ => rfl, fun hs => hs⟩
  | cons op ops ih =>
      intro rows
      have hop := runOp_count tid rows op
      have IH := ih (runOp rows op).1
      rw [runOps_cons]
      simp only
      rw [claimSuccesses_cons]
      refine ⟨?_, ?_, ?_⟩
      · rcases Nat.eq_zero_or_pos ((runOp rows op).2.count tid) with h0 | h1
        · rw [h0, Nat.zero_add]
          exact IH.1
        · have hone : (runOp rows op).2.count tid = 1 :=
            Nat.le_antisymm hop.1 h1
          have hsealed := hop.2.2.2 h1
          rw [hone, IH.2.1 hsealed]
      · intro hs
        rw [hop.2.1 hs, Nat.zero_add]
        exact IH.2.1 (hop.2.2.1 hs)
      · intro hs
        exact IH.2.2 (hop.2.2.1 hs)

/-- Already-set escalation timestamps survive a whole interleaving. -/
lemma runOps_escalated_preserved (ops : List ProtoOp) :
    ∀ (rows : List Task) (i : Nat) (t : Task) (v : Int),
      rows[i]? = some t → t.escalated_at = some v →
      ∃ t', (runOps rows ops).1[i]? = some t' ∧ t'.escalated_at = some v := by
  induction ops with
  | nil =>
      intro rows i t v hget hesc
      exact ⟨t, hget, hesc⟩
  | cons op ops ih =>
      intro rows i t v hget hesc
      obtain ⟨t', hget', hesc'⟩ := runOp_escalated_preserved rows op i t v hget hesc
      rw [runOps_cons]
      simp only
      exact ih (runOp rows op).1 i t' v hget' hesc'

/-! ### Further helper lemmas -/

/-- The due-at overdue check is false for a closed task. -/
lemma isOverdueDueAt_closed (dueAt : Option Int) (now : Int) :
    isOverdueDueAt dueAt "closed" now = false := by
  cases dueAt <;> simp [isOverdueDueAt]

/-- The custom-timer overdue check is false for a closed task. -/
lemma isOverdueCustom_closed (c s : Option Int) (now : Int) :
    isOverdueCustom c s "closed" now = false := by
  cases c <;> cases s <;> simp [isOverdueCustom]

/-- The combined overdue check is false for a closed task. -/
lemma overdueOf_closed (t : Task) (h : t.status = "closed") (now : Int) :
    overdueOf t now = false := by
  unfold overdueOf isOverdueCustomTimer
  rw [h, isOverdueCustom_closed, isOverdueDueAt_closed]
  rfl

/-- A conditional claim on an id whose rows are all escalated leaves the
store literally unchanged. -/
lemma claimOnce_rows_of_sealed (rows : List Task) (id : Nat) (now : Int)
    (toId : Option Nat) (h : sealedId id rows) :
    (claimOnce rows id now toId).1 = rows := by
  rw [claimOnce_rows]
  conv_rhs => rw [← List.map_id rows]
  apply List.map_congr_left
  intro t htmem
  show claimRowUpdate id now toId t = t
  by_cases hid : t.id = id
  · exact claimRowUpdate_of_escalated id now toId t (h t htmem hid)
  · exact claimRowUpdate_of_ne id now toId t hid

/-- Membership in the sweeper's overdue list implies membership in the
store and an open-or-pending status. -/
lemma mem_sweepOverdue (rows : List Task) (now : Int) (c : Task)
    (h : c ∈ sweepOverdue rows now) : c ∈ rows ∧ c.status ≠ "closed" := by
  unfold sweepOverdue at h
  have hcand : c ∈ sweepCandidates rows := List.mem_of_mem_filter h
  unfold sweepCandidates at hcand
  have hfil : c ∈ rows.filter (fun t => !(t.status = "closed") && t.escalated_at.isNone) :=
    List.take_subset _ _ hcand
  have := List.mem_filter.mp hfil
  refine ⟨this.1, ?_⟩
  intro hc
  have hprop := this.2
  simp [hc] at hprop

/-- The sweeper's fold never touches a row whose id differs from every
candidate's id. -/
lemma sweepFold_untouched (sq : Option Nat) (nowI : Int) :
    ∀ (cands rows : List Task) (n : Nat) (ids : List Nat) (i : Nat) (t : Task),
      rows[i]? = some t → (∀ c ∈ cands, c.id ≠ t.id) →
      (cands.foldl (sweeperStep sq nowI) (rows, n, ids)).1[i]? = some t := by
  intro cands
  induction cands with
  | nil => intro rows n ids i t hget _; exact hget
  | cons c cands ih =>
      intro rows n ids i t hget hne
      rw [List.foldl_cons]
      have hne' : ∀ d ∈ cands, d.id ≠ t.id := fun d hd => hne d (List.mem_cons_of_mem c hd)
      have hstep : (claimOnce rows c.id nowI sq).1[i]? = some t := by
        rw [claimOnce_rows, List.getElem?_map, hget]
        exact congrArg some (claimRowUpdate_of_ne c.id nowI sq t (by
          intro he
          exact hne c (List.mem_cons_self c cands) he.symm))
      cases hr : (claimOnce rows c.id nowI sq).2 with
      | none =>
          rw [sweeperStep_of_none sq nowI (rows, n, ids) c hr]
          exact ih _ n ids i t hstep hne'
      | some u =>
          rw [sweeperStep_of_some sq nowI (rows, n, ids) c u hr]
          exact ih _ (n + 1) (ids ++ [c.id]) i t hstep hne'

/-- When some row with the target id is still unescalated, the conditional
claim affects a row (the update returns it). -/
lemma claimOnce_ret_isSome (rows : List Task) (id : Nat) (now : Int) (toId : Option Nat)
    (h : ¬ sealedId id rows) : (claimOnce rows id now toId).2.isSome = true := by
  unfold sealedId at h
  push_neg at h
  obtain ⟨t, htmem, hid, hnone⟩ := h
  have hmem : t ∈ rows.filter (fun t => t.id = id ∧ t.escalated_at = none) :=
    List.mem_filter.mpr ⟨htmem, by simp [hid, hnone]⟩
  unfold claimOnce
  simp only
  cases hfil : rows.filter (fun t => t.id = id ∧ t.escalated_at = none) with
  | nil =>
      rw [hfil] at hmem
      cases hmem
  | cons a l => rfl

/-! ## The claims -/

/-- **C1** (confirmed).  For every task and every interleaving of N ≥ 1
concurrent invocations of the escalation protocol — client calls to
`escalateOverdueTask` and sweeper runs, serialized arbitrarily at the
storage layer's atomic conditional update — at most one invocation's
conditional update succeeds in claiming that task's id; every other
invocation observes zero rows affected; and once a row's `escalated_at` is
non-null it keeps that value through the whole interleaving. -/
theorem escalation_claim_at_most_once (rows : List Task) (ops : List ProtoOp) (tid : Nat) :
    claimSuccesses tid (runOps rows ops).2 ≤ 1
    ∧ ∀ (i : Nat) (t : Task) (v : Int),
        rows[i]? = some t → t.escalated_at = some v →
        ∃ t', (runOps rows ops).1[i]? = some t' ∧ t'.escalated_at = some v :=
  ⟨(runOps_count tid ops rows).1,
   fun i t v hget hesc => runOps_escalated_preserved ops rows i t v hget hesc⟩

/-- Witness for C1 at a concrete store and interleaving: one already
escalated task, attacked by a client call and a sweeper run. -/
theorem escalation_claim_at_most_once_witness :
    claimSuccesses 1
        (runOps [⟨1, "open", some 0, none, none, 0, some 5, some 2, none, none⟩]
          [ProtoOp.client ⟨1, "open", some 0, none, none, 0, some 5, some 2, none, none⟩
            (some (some 2)) 10000,
           ProtoOp.sweep (some 2) 20000]).2 ≤ 1
    ∧ ∃ t', (runOps [⟨1, "open", some 0, none, none, 0, some 5, some 2, none, none⟩]
          [ProtoOp.client ⟨1, "open", some 0, none, none, 0, some 5, some 2, none, none⟩
            (some (some 2)) 10000,
           ProtoOp.sweep (some 2) 20000]).1[0]? = some t'
        ∧ t'.escalated_at = some 5 :=
  ⟨(escalation_claim_at_most_once _ _ 1).1,
   (escalation_claim_at_most_once _ _ 1).2 0
     ⟨1, "open", some 0, none, none, 0, some 5, some 2, none, none⟩ 5 rfl rfl⟩

/-- **C2** (counterexample).  The claim says that when
`custom_duration_seconds` is set and the timer is running, overdue is
computed *solely* from `started_at + custom_duration_seconds` and `due_at`
is ignored — so a past `due_at` with an unexpired running custom timer
would not be overdue.  The code computes the *disjunction* instead: at
`now = 1000000` ms, a task with `due_at = 999000` (1 s past),
`custom_duration_seconds = 60` and `started_at = 970000` (30 s elapsed of
60) has an unexpired custom timer, yet `overdueOf` is `true` via the
`due_at` path. -/
theorem overdue_custom_precedence_counterexample :
    isOverdueCustomTimer (some 60) (some 970000) "open" 1000000 = false
    ∧ overdueOf ⟨1, "open", some 999000, some 60, some 970000, 0, none, none, none, none⟩
        1000000 = true := by
  exact ⟨by decide, by decide⟩

/-- **C2** (amended).  Overdue is the disjunction of the two deadline
sources: an expired running custom timer makes the task overdue regardless
of `due_at` (in particular with a far-future `due_at`), and a past `due_at`
makes a non-closed task overdue regardless of the custom timer's state —
`due_at` is *not* ignored when a custom timer governs. -/
theorem overdue_is_disjunction :
    (∀ (t : Task) (now : Int),
        isOverdueCustomTimer t.custom_duration_seconds t.started_at t.status now = true →
        overdueOf t now = true)
    ∧ (∀ (t : Task) (now d : Int),
        t.status ≠ "closed" → t.due_at = some d → d < now →
        overdueOf t now = true) := by
  constructor
  · intro t now h
    unfold overdueOf
    rw [h]
    rfl
  · intro t now d hst hdue hlt
    unfold overdueOf
    have hdueAt : isOverdueDueAt t.due_at t.status now = true := by
      rw [hdue]
      simp [isOverdueDueAt, hst, hlt]
    rw [hdueAt, Bool.or_true]

/-- Witness for the amended C2: the spec's own precedence example
(far-future `due_at`, expired running custom timer) is overdue, and so is
the counterexample task with a past `due_at` and an unexpired custom
timer. -/
theorem overdue_is_disjunction_witness :
    overdueOf ⟨1, "open", some 11000000, some 60, some 939000, 0, none, none, none, none⟩
        1000000 = true
    ∧ overdueOf ⟨1, "open", some 999000, some 60, some 970000, 0, none, none, none, none⟩
        1000000 = true :=
  ⟨overdue_is_disjunction.1
      ⟨1, "open", some 11000000, some 60, some 939000, 0, none, none, none, none⟩
      1000000 (by decide),
   overdue_is_disjunction.2
      ⟨1, "open", some 999000, some 60, some 970000, 0, none, none, none, none⟩
      1000000 999000 (by decide) rfl (by decide)⟩

/-- **C3** (counterexample).  The claim says eligibility is recomputed at
execution time from a *fresh read* of the task record and is never decided
from the caller's cached copy.  In the code, `escalateOverdueTask` never
re-reads the row: with the *same* stored row (open, overdue, not
escalated), an invocation whose cached snapshot says `closed` skips and
leaves the store untouched, while an invocation with an up-to-date snapshot
claims it — the decision is a function of the caller's cached copy. -/
theorem eligibility_from_cached_snapshot_counterexample :
    (escalateOverdueTask ⟨1, "closed", some 0, none, none, 0, none, none, none, none⟩
        [⟨1, "open", some 0, none, none, 0, none, none, none, none⟩]
        (some (some 7)) 1000000).returned = false
    ∧ (escalateOverdueTask ⟨1, "closed", some 0, none, none, 0, none, none, none, none⟩
        [⟨1, "open", some 0, none, none, 0, none, none, none, none⟩]
        (some (some 7)) 1000000).rows =
        [⟨1, "open", some 0, none, none, 0, none, none, none, none⟩]
    ∧ (escalateOverdueTask ⟨1, "open", some 0, none, none, 0, none, none, none, none⟩
        [⟨1, "open", some 0, none, none, 0, none, none, none, none⟩]
        (some (some 7)) 1000000).returned = true := by
  exact ⟨by decide, by decide, by decide⟩

/-- **C3** (amended).  Eligibility (`status != closed`, overdue) is
recomputed at execution time with the current clock but from the caller's
task snapshot: an ineligible snapshot means no update at all, whatever the
store holds.  Only the `escalated_at is null` part is enforced against
current storage, by the conditional update: if every stored row with the
task's id is already escalated, the invocation returns `false` and the
store is unchanged, whatever the snapshot claims. -/
theorem eligibility_snapshot_and_fresh_claim :
    (∀ (task : Task) (rows : List Task) (sq : Option (Option Nat)) (now : Int),
        overdueOf task now = false ∨ task.escalated_at ≠ none →
        escalateOverdueTask task rows sq now = ⟨rows, false, none, false⟩)
    ∧ (∀ (task : Task) (rows : List Task) (sq : Option (Option Nat)) (now : Int),
        sealedId task.id rows →
        (escalateOverdueTask task rows sq now).returned = false
        ∧ (escalateOverdueTask task rows sq now).rows = rows) := by
  constructor
  · intro task rows sq now h
    have hcond : (!(overdueOf task now) || task.escalated_at.isSome) = true := by
      rcases h with h | h
      · rw [h]
        rfl
      · have : task.escalated_at.isSome = true := Option.isSome_iff_ne_none.mpr h
        rw [this, Bool.or_true]
    unfold escalateOverdueTask
    rw [if_pos hcond]
  · intro task rows sq now h
    rcases escalateOverdueTask_cases task rows sq now with hcase | ⟨toId, hrows, hret⟩
    · rw [hcase]
      exact ⟨rfl, rfl⟩
    · constructor
      · cases hb : (escalateOverdueTask task rows sq now).returned with
        | false => rfl
        | true =>
            obtain ⟨u, hu⟩ := Option.isSome_iff_exists.mp (hret hb)
            exact absurd h (claimOnce_ret_some rows task.id now toId u hu)
      · rw [hrows]
        exact claimOnce_rows_of_sealed rows task.id now toId h

/-- Witness for the amended C3: a stale closed snapshot skips an eligible
stored row, and a fresh-looking snapshot loses the claim against a store
whose row is already escalated, leaving it unchanged. -/
theorem eligibility_snapshot_and_fresh_claim_witness :
    escalateOverdueTask ⟨1, "closed", some 0, none, none, 0, none, none, none, none⟩
        [⟨1, "open", some 0, none, none, 0, none, none, none, none⟩] (some (some 7)) 1000000
      = ⟨[⟨1, "open", some 0, none, none, 0, none, none, none, none⟩], false, none, false⟩
    ∧ (escalateOverdueTask ⟨1, "open", some 0, none, none, 0, none, none, none, none⟩
        [⟨1, "open", some 0, none, none, 0, some 5, some 9, none, none⟩]
        (some (some 7)) 1000000).returned = false
    ∧ (escalateOverdueTask ⟨1, "open", some 0, none, none, 0, none, none, none, none⟩
        [⟨1, "open", some 0, none, none, 0, some 5, some 9, none, none⟩]
        (some (some 7)) 1000000).rows =
        [⟨1, "open", some 0, none, none, 0, some 5, some 9, none, none⟩] :=
  ⟨eligibility_snapshot_and_fresh_claim.1
      ⟨1, "closed", some 0, none, none, 0, none, none, none, none⟩
      [⟨1, "open", some 0, none, none, 0, none, none, none, none⟩] (some (some 7)) 1000000
      (Or.inl (by decide)),
   (eligibility_snapshot_and_fresh_claim.2
      ⟨1, "open", some 0, none, none, 0, none, none, none, none⟩
      [⟨1, "open", some 0, none, none, 0, some 5, some 9, none, none⟩] (some (some 7)) 1000000
      (by intro t ht hid; simp at ht; rw [ht]; simp)).1,
   (eligibility_snapshot_and_fresh_claim.2
      ⟨1, "open", some 0, none, none, 0, none, none, none, none⟩
      [⟨1, "open", some 0, none, none, 0, some 5, some 9, none, none⟩] (some (some 7)) 1000000
      (by intro t ht hid; simp at ht; rw [ht]; simp)).2⟩

/-- **C4** (counterexample).  The claim says every remaining/countdown
computation reports a closed task as not overdue and not urgent regardless
of its timing fields.  `TaskCard.tsx`'s `formatRemaining` does not take the
status at all: for a closed task with `due_at` in the past it reports
`isOverdue = true` (the card then renders the red `00:00:00` timer; only
the status *badge* masks the overdue label for closed tasks). -/
theorem closed_card_overdue_counterexample :
    (⟨1, "closed", some 0, none, none, 0, none, none, none, none⟩ : Task).status = "closed"
    ∧ (formatRemainingCard
        (⟨1, "closed", some 0, none, none, 0, none, none, none, none⟩ : Task).due_at
        1000000).isOverdue = true := by
  exact ⟨rfl, by decide⟩

/-- **C4** (amended).  The detail screen's `formatRemaining`, which does
take the status, reports a closed task as not overdue and not urgent
regardless of `due_at`, and both overdue predicates are false for closed
tasks whatever the timing fields; the card's status badge also never shows
`overdue` for a closed task.  But the card's countdown itself ignores
status (see the counterexample), so the claim holds for every computation
except `TaskCard`'s `formatRemaining`. -/
theorem closed_not_overdue_not_urgent :
    ∀ (due custom started : Option Int) (now : Int) (b : Bool),
      formatRemainingDetail due "closed" now = ⟨false, false⟩
      ∧ isOverdueDueAt due "closed" now = false
      ∧ isOverdueCustom custom started "closed" now = false
      ∧ getStatusConfigLabel "closed" b = "closed" := by
  intro due custom started now b
  refine ⟨?_, isOverdueDueAt_closed due now, isOverdueCustom_closed custom started now, ?_⟩
  · unfold formatRemainingDetail
    rw [if_pos rfl]
  · unfold getStatusConfigLabel
    rw [if_neg (by simp), if_pos rfl]

/-- **C5** (code bug).  At `now = 3600000` ms, for an open task with
`custom_duration_seconds = 3600`: `started_at = now - 3601000` (3601 s
elapsed) is overdue and `started_at = now - 3599000` (3599 s elapsed) is
not — those halves hold.  But no code computes urgency from the custom
timer: both `formatRemaining` variants read only `due_at`, so for the
spec's task (no `due_at`, a running custom timer with 1 s left) they
report "No deadline" with `isUrgent = false`, although the repository's
own docs (`FEATURES_IMPLEMENTED.md`: "Updated formatRemaining() function
to support custom duration calculation"; the migration comment on
`custom_duration_seconds`: "overrides due_at calculation for timer
display") say the display uses the custom duration. -/
theorem custom_timer_urgency_missing :
    isOverdueCustom (some 3600) (some (-1000)) "open" 3600000 = true
    ∧ isOverdueCustom (some 3600) (some 1000) "open" 3600000 = false
    ∧ formatRemainingCard
        (⟨1, "open", none, some 3600, some 1000, 0, none, none, none, none⟩ : Task).due_at
        3600000 = ⟨false, false⟩
    ∧ formatRemainingDetail
        (⟨1, "open", none, some 3600, some 1000, 0, none, none, none, none⟩ : Task).due_at
        "open" 3600000 = ⟨false, false⟩ := by
  exact ⟨by decide, by decide, by decide, by decide⟩

/-- **C6** (confirmed).  Elapsed running time accumulates without double
counting: starting at `T0`, pausing at `T0+100s`, starting again at
`T0+200s` and pausing at `T0+250s` leaves `time_spent_seconds = 150`;
a pause with no running timer adds nothing; a pause of a running timer
adds exactly `floor((now - started_at)/1000)` seconds and clears
`started_at`; and starting never changes the accumulated time. -/
theorem time_spent_no_double_count :
    (∀ (t : Task) (T0 : Int), t.time_spent_seconds = 0 →
        (handlePending (handleOpen (handlePending (handleOpen t T0) (T0 + 100000))
          (T0 + 200000)) (T0 + 250000)).time_spent_seconds = 150)
    ∧ (∀ (t : Task) (now : Int), t.started_at = none →
        (handlePending t now).time_spent_seconds = t.time_spent_seconds)
    ∧ (∀ (t : Task) (s now : Int), t.started_at = some s →
        (handlePending t now).time_spent_seconds =
          t.time_spent_seconds + Int.fdiv (now - s) 1000
        ∧ (handlePending t now).started_at = none)
    ∧ (∀ (t : Task) (now : Int),
        (handleOpen t now).time_spent_seconds = t.time_spent_seconds) := by
  refine ⟨?_, ?_, ?_, fun t now => rfl⟩
  · intro t T0 h
    simp only [handleOpen, handlePending, h]
    have h1 : T0 + 100000 - T0 = 100000 := by ring
    have h2 : T0 + 250000 - (T0 + 200000) = 50000 := by ring
    rw [h1, h2]
    decide
  · intro t now h
    simp only [handlePending, h]
    exact add_zero _
  · intro t s now h
    simp [handlePending, h]

/-- Witness for C6 at `T0 = 0` on a fresh task. -/
theorem time_spent_no_double_count_witness :
    (handlePending (handleOpen (handlePending (handleOpen
        ⟨1, "open", none, none, none, 0, none, none, none, none⟩ 0) 100000) 200000)
      250000).time_spent_seconds = 150
    ∧ (handlePending ⟨1, "open", none, none, none, 7, none, none, none, none⟩
        99000).time_spent_seconds = 7
    ∧ (handlePending ⟨1, "open", none, none, some 1000, 7, none, none, none, none⟩
        99000).time_spent_seconds = 7 + Int.fdiv (99000 - 1000) 1000
    ∧ (handleOpen ⟨1, "open", none, none, none, 7, none, none, none, none⟩
        55).time_spent_seconds = 7 :=
  ⟨time_spent_no_double_count.1 ⟨1, "open", none, none, none, 0, none, none, none, none⟩
      0 rfl,
   time_spent_no_double_count.2.1 ⟨1, "open", none, none, none, 7, none, none, none, none⟩
      99000 rfl,
   (time_spent_no_double_count.2.2.1
      ⟨1, "open", none, none, some 1000, 7, none, none, none, none⟩ 1000 99000 rfl).1,
   time_spent_no_double_count.2.2.2 ⟨1, "open", none, none, none, 7, none, none, none, none⟩
      55⟩

/-- **C7** (confirmed).  Attempting the start transition on a closed task
is rejected (the Open control's guard refuses it before any update is
issued), and attempting the close transition without approval authority is
rejected by `handleClose`'s `isManager` guard with the "Approval Required"
alert; in both cases the rejection is an `InvalidTransition` outcome and no
update reaches the task record. -/
theorem invalid_transitions_rejected :
    (∀ (t : Task) (now : Int), t.status = "closed" →
        startAttempt t now = .error .invalidTransition)
    ∧ (∀ (t : Task) (approver : Nat) (now : Int),
        closeAttempt t false approver now = .error .invalidTransition) := by
  constructor
  · intro t now h
    unfold startAttempt
    rw [if_pos (Or.inr h)]
  · intro t approver now
    unfold closeAttempt
    by_cases h : t.status = "closed"
    · rw [if_pos h]
    · rw [if_neg h, if_pos (by decide)]

/-- Witness for C7: a closed running-history task refuses `start`, and a
non-manager cannot close an open task. -/
theorem invalid_transitions_rejected_witness :
    startAttempt ⟨1, "closed", some 0, none, none, 40, none, none, some 9, some 100⟩ 2000
      = .error .invalidTransition
    ∧ closeAttempt ⟨2, "open", some 0, none, some 10, 0, none, none, none, none⟩ false 9 2000
      = .error .invalidTransition :=
  ⟨invalid_transitions_rejected.1
      ⟨1, "closed", some 0, none, none, 40, none, none, some 9, some 100⟩ 2000 rfl,
   invalid_transitions_rejected.2
      ⟨2, "open", some 0, none, some 10, 0, none, none, none, none⟩ 9 2000⟩

/-- **C8** (counterexample).  The claim says an Escalation Protocol
invocation on an eligible overdue task with no supervisory user still
marks the task escalated.  The repository contains a second revision of
`escalateOverdueTask` (the due-at-only variant) in which the absence of a
supervisor *aborts* the invocation before any update: on an overdue, open,
unescalated task with an empty supervisor query it returns `false` and
leaves the store unchanged (`escalated_at` still null). -/
theorem no_supervisor_aborts_legacy_counterexample :
    isOverdueDueAt (some 0) "open" 1000000 = true
    ∧ (escalateOverdueTaskLegacy ⟨1, "open", some 0, none, none, 0, none, none, none, none⟩
        [⟨1, "open", some 0, none, none, 0, none, none, none, none⟩] none 1000000).returned
      = false
    ∧ (escalateOverdueTaskLegacy ⟨1, "open", some 0, none, none, 0, none, none, none, none⟩
        [⟨1, "open", some 0, none, none, 0, none, none, none, none⟩] none 1000000).rows
      = [⟨1, "open", some 0, none, none, 0, none, none, none, none⟩] := by
  exact ⟨by decide, by decide, by decide⟩

/-- **C8** (amended).  In the custom-duration-aware escalation module and
in the sweeper, the absence of a supervisory user does not abort the
marking: the claim still goes through with `escalated_to = null`, the
target-specific push is skipped, and (for the client module) the
escalation email is still invoked.  The due-at-only legacy variant instead
returns `false` without marking when no supervisor exists (see the
counterexample). -/
theorem no_supervisor_still_escalates :
    (∀ (task : Task) (rows : List Task) (now : Int),
        overdueOf task now = true → task.escalated_at = none →
        ¬ sealedId task.id rows →
        (escalateOverdueTask task rows (some none) now).returned = true
        ∧ (escalateOverdueTask task rows (some none) now).pushTo = none
        ∧ (escalateOverdueTask task rows (some none) now).emailed = true
        ∧ (escalateOverdueTask task rows (some none) now).rows =
            rows.map (claimRowUpdate task.id now none))
    ∧ (∀ (trow : Task) (now : Int),
        trow.escalated_at = none →
        (isOverdueCustom trow.custom_duration_seconds trow.started_at trow.status now
          || isOverdueDueAt trow.due_at trow.status now) = true →
        (sweeperRun [trow] none now).processed = 1
        ∧ (sweeperRun [trow] none now).rows =
            [{ trow with escalated_at := some now, escalated_to := none }]) := by
  constructor
  · intro task rows now hov hesc hns
    have hcond : (!(overdueOf task now) || task.escalated_at.isSome) = false := by
      rw [hov, hesc]
      rfl
    have hsome := claimOnce_ret_isSome rows task.id now none hns
    obtain ⟨u, hu⟩ := Option.isSome_iff_exists.mp hsome
    unfold escalateOverdueTask
    rw [hcond]
    simp only [Bool.false_eq_true, if_false, hu]
    exact ⟨trivial, trivial, trivial, rfl⟩
  · intro trow now hesc hov
    have hst : trow.status ≠ "closed" := by
      intro hc
      rw [hc, isOverdueCustom_closed, isOverdueDueAt_closed] at hov
      simp at hov
    have hcand : sweepCandidates [trow] = [trow] := by
      unfold sweepCandidates
      simp [List.filter, hst, hesc]
    have hover : sweepOverdue [trow] now = [trow] := by
      unfold sweepOverdue
      rw [hcand]
      simp [List.filter, hov]
    have hclaim : claimOnce [trow] trow.id now none =
        ([{ trow with escalated_at := some now, escalated_to := none }],
         some { trow with escalated_at := some now, escalated_to := none }) := by
      unfold claimOnce
      simp [List.filter, hesc, claimRowUpdate]
    unfold sweeperRun
    rw [hover]
    simp only [List.isEmpty_cons, Bool.false_eq_true, if_false, List.foldl_cons,
      List.foldl_nil]
    rw [sweeperStep_of_some none now ([trow], 0, [])
        trow { trow with escalated_at := some now, escalated_to := none }
        (by rw [hclaim])]
    rw [hclaim]
    exact ⟨rfl, rfl⟩

/-- Witness for the amended C8: a concrete overdue task in a one-row
store, escalated with no supervisor by the client module and by the
sweeper. -/
theorem no_supervisor_still_escalates_witness :
    (escalateOverdueTask ⟨1, "open", some 0, none, none, 0, none, none, none, none⟩
        [⟨1, "open", some 0, none, none, 0, none, none, none, none⟩] (some none)
        1000000).returned = true
    ∧ (escalateOverdueTask ⟨1, "open", some 0, none, none, 0, none, none, none, none⟩
        [⟨1, "open", some 0, none, none, 0, none, none, none, none⟩] (some none)
        1000000).pushTo = none
    ∧ (sweeperRun [⟨2, "open", some 0, none, none, 0, none, none, none, none⟩] none
        1000000).processed = 1 :=
  ⟨(no_supervisor_still_escalates.1 ⟨1, "open", some 0, none, none, 0, none, none, none, none⟩
      [⟨1, "open", some 0, none, none, 0, none, none, none, none⟩] 1000000 (by decide) rfl
      (by
        intro hs
        exact hs ⟨1, "open", some 0, none, none, 0, none, none, none, none⟩
          (by simp) rfl rfl)).1,
   (no_supervisor_still_escalates.1 ⟨1, "open", some 0, none, none, 0, none, none, none, none⟩
      [⟨1, "open", some 0, none, none, 0, none, none, none, none⟩] 1000000 (by decide) rfl
      (by
        intro hs
        exact hs ⟨1, "open", some 0, none, none, 0, none, none, none, none⟩
          (by simp) rfl rfl)).2.1,
   (no_supervisor_still_escalates.2 ⟨2, "open", some 0, none, none, 0, none, none, none, none⟩
      1000000 rfl (by decide)).1⟩

/-- **C9** (confirmed).  A closed task is never escalated: it is excluded
from the sweeper's overdue candidates even with a past `due_at`; a
protocol invocation whose snapshot is closed recomputes eligibility to
false and issues no update; and a sweeper run leaves every closed row of a
well-formed store (distinct row ids) untouched. -/
theorem closed_tasks_never_escalated :
    (∀ (rows : List Task) (now : Int) (t : Task),
        t.status = "closed" → t ∉ sweepOverdue rows now)
    ∧ (∀ (task : Task) (rows : List Task) (sq : Option (Option Nat)) (now : Int),
        task.status = "closed" →
        escalateOverdueTask task rows sq now = ⟨rows, false, none, false⟩)
    ∧ (∀ (rows : List Task) (sq : Option Nat) (now : Int) (i : Nat) (t : Task),
        (rows.map Task.id).Nodup → rows[i]? = some t → t.status = "closed" →
        (sweeperRun rows sq now).rows[i]? = some t) := by
  refine ⟨?_, ?_, ?_⟩
  · intro rows now t hclosed hmem
    exact (mem_sweepOverdue rows now t hmem).2 hclosed
  · intro task rows sq now hclosed
    unfold escalateOverdueTask
    rw [if_pos (by rw [overdueOf_closed task hclosed now]; rfl)]
  · intro rows sq now i t hnodup hget hclosed
    rcases sweeperRun_cases rows sq now with h | ⟨hrows, _⟩
    · rw [h]
      exact hget
    · rw [hrows]
      refine sweepFold_untouched sq now (sweepOverdue rows now) rows 0 [] i t hget ?_
      intro c hc hcid
      obtain ⟨hcmem, hcst⟩ := mem_sweepOverdue rows now c hc
      have htmem : t ∈ rows := List.getElem?_mem hget
      have hct : c = t :=
        List.inj_on_of_nodup_map hnodup hcmem htmem hcid
      rw [hct] at hcst
      exact hcst hclosed

/-- Witness for C9: a closed task with a one-second-past deadline, alone
in the store and alongside an open row. -/
theorem closed_tasks_never_escalated_witness :
    (⟨1, "closed", some 999000, none, none, 0, none, none, none, none⟩ : Task)
      ∉ sweepOverdue [⟨1, "closed", some 999000, none, none, 0, none, none, none, none⟩]
          1000000
    ∧ escalateOverdueTask ⟨1, "closed", some 999000, none, none, 0, none, none, none, none⟩
        [⟨1, "closed", some 999000, none, none, 0, none, none, none, none⟩] (some (some 7))
        1000000
      = ⟨[⟨1, "closed", some 999000, none, none, 0, none, none, none, none⟩], false, none,
          false⟩
    ∧ (sweeperRun [⟨1, "closed", some 999000, none, none, 0, none, none, none, none⟩,
          ⟨2, "open", some 999000, none, none, 0, none, none, none, none⟩] (some 7)
          1000000).rows[0]?
      = some ⟨1, "closed", some 999000, none, none, 0, none, none, none, none⟩ :=
  ⟨closed_tasks_never_escalated.1
      [⟨1, "closed", some 999000, none, none, 0, none, none, none, none⟩] 1000000
      ⟨1, "closed", some 999000, none, none, 0, none, none, none, none⟩ rfl,
   closed_tasks_never_escalated.2.1
      ⟨1, "closed", some 999000, none, none, 0, none, none, none, none⟩
      [⟨1, "closed", some 999000, none, none, 0, none, none, none, none⟩] (some (some 7))
      1000000 rfl,
   closed_tasks_never_escalated.2.2
      [⟨1, "closed", some 999000, none, none, 0, none, none, none, none⟩,
       ⟨2, "open", some 999000, none, none, 0, none, none, none, none⟩] (some 7) 1000000 0
      ⟨1, "closed", some 999000, none, none, 0, none, none, none, none⟩
      (by decide) rfl rfl⟩

/-- **C10** (confirmed).  The conditional escalation claim is frame-exact:
it never adds or removes rows, every row's `id`, `status`, `due_at`,
`custom_duration_seconds`, `started_at`, `time_spent_seconds`,
`closed_approved_by` and `closed_at` are unchanged whether the claim
succeeds or is lost, and any row whose id differs from the target is
untouched entirely — only the target row's `escalated_at`/`escalated_to`
can change. -/
theorem claim_writes_only_escalation_fields (rows : List Task) (id : Nat) (now : Int)
    (toId : Option Nat) :
    (claimOnce rows id now toId).1.length = rows.length
    ∧ ∀ (i : Nat) (t : Task), rows[i]? = some t →
        ∃ t', (claimOnce rows id now toId).1[i]? = some t'
          ∧ t'.id = t.id ∧ t'.status = t.status ∧ t'.due_at = t.due_at
          ∧ t'.custom_duration_seconds = t.custom_duration_seconds
          ∧ t'.started_at = t.started_at
          ∧ t'.time_spent_seconds = t.time_spent_seconds
          ∧ t'.closed_approved_by = t.closed_approved_by
          ∧ t'.closed_at = t.closed_at
          ∧ (t.id ≠ id → t' = t) := by
  constructor
  · rw [claimOnce_rows]
    exact List.length_map rows _
  · intro i t hget
    refine ⟨claimRowUpdate id now toId t, ?_, ?_⟩
    · rw [claimOnce_rows, List.getElem?_map, hget]
      rfl
    · unfold claimRowUpdate
      split
      · next hc =>
          exact ⟨rfl, rfl, rfl, rfl, rfl, rfl, rfl, rfl, fun hne => absurd hc.1 hne⟩
      · exact ⟨rfl, rfl, rfl, rfl, rfl, rfl, rfl, rfl, fun _ => rfl⟩

/-- Witness for C10: a two-row store, claiming row 1; the open row keeps
all its non-escalation fields and the other row is untouched. -/
theorem claim_writes_only_escalation_fields_witness :
    (claimOnce [⟨1, "open", some 0, some 60, some 5, 42, none, none, none, none⟩,
        ⟨2, "pending", some 9, none, none, 7, none, none, none, none⟩] 1 777 (some 5)).1.length
      = 2
    ∧ (∃ t', (claimOnce [⟨1, "open", some 0, some 60, some 5, 42, none, none, none, none⟩,
          ⟨2, "pending", some 9, none, none, 7, none, none, none, none⟩] 1 777 (some 5)).1[0]?
        = some t'
        ∧ t'.id = 1 ∧ t'.status = "open" ∧ t'.due_at = some 0
        ∧ t'.custom_duration_seconds = some 60 ∧ t'.started_at = some 5
        ∧ t'.time_spent_seconds = 42 ∧ t'.closed_approved_by = none ∧ t'.closed_at = none)
    ∧ (∃ t', (claimOnce [⟨1, "open", some 0, some 60, some 5, 42, none, none, none, none⟩,
          ⟨2, "pending", some 9, none, none, 7, none, none, none, none⟩] 1 777 (some 5)).1[1]?
        = some t'
        ∧ t' = ⟨2, "pending", some 9, none, none, 7, none, none, none, none⟩) := by
  refine ⟨(claim_writes_only_escalation_fields _ 1 777 (some 5)).1, ?_, ?_⟩
  · obtain ⟨t', hget, h1, h2, h3, h4, h5, h6, h7, h8, _⟩ :=
      (claim_writes_only_escalation_fields
        [⟨1, "open", some 0, some 60, some 5, 42, none, none, none, none⟩,
         ⟨2, "pending", some 9, none, none, 7, none, none, none, none⟩] 1 777 (some 5)).2 0
        ⟨1, "open", some 0, some 60, some 5, 42, none, none, none, none⟩ rfl
    exact ⟨t', hget, h1, h2, h3, h4, h5, h6, h7, h8⟩
  · obtain ⟨t', hget, _, _, _, _, _, _, _, _, hother⟩ :=
      (claim_writes_only_escalation_fields
        [⟨1, "open", some 0, some 60, some 5, 42, none, none, none, none⟩,
         ⟨2, "pending", some 9, none, none, 7, none, none, none, none⟩] 1 777 (some 5)).2 1
        ⟨2, "pending", some 9, none, none, 7, none, none, none, none⟩ rfl
    exact ⟨t', hget, hother (by decide)⟩

end Culate
